import Mathlib

/-!
Verification development for the `wordle` terminal game engine
(`src/wordle/wordle.py`, `src/wordle/board.py`, `src/wordle/locale.py`,
`src/wordle/letter.py`, `src/wordle/guess.py`, `src/wordle/modes.py`,
`src/wordle/exceptions.py`, relevant parts of `src/wordle/cli.py`).

Python strings are embedded as `List Char`.  Python `set`s of words are
embedded as lists with membership tests (only membership is used by the
code).  Mutation of objects becomes explicit state passing; in particular
the single shared `Locale` object (aliased by every puzzle of a board and
by the CLI loop) is threaded explicitly through every operation that can
touch it, which models the Python aliasing exactly because the corpora
are never written and `word_found` updates depend only on the corpora and
the submitted word.  Code that can raise returns `Except`/`Option`.
-/

namespace WordleGame

deriving instance DecidableEq for Except

/-- Models Python `str.upper` at character level for the alphabet this
program uses (ASCII letters plus the accented Latin letters of the
`pt_br` locale).  On this alphabet Python's `upper` is exactly a
character-by-character map. -/
def upperChar (c : Char) : Char :=
  match c with
  | 'á' => 'Á' | 'à' => 'À' | 'â' => 'Â' | 'ã' => 'Ã'
  | 'é' => 'É' | 'ê' => 'Ê'
  | 'í' => 'Í'
  | 'ó' => 'Ó' | 'ô' => 'Ô' | 'õ' => 'Õ'
  | 'ú' => 'Ú'
  | 'ç' => 'Ç'
  | _ => c.toUpper

/-- Models the third-party `unidecode` library on the alphabet this
program uses: accent stripping to the ASCII base letter, identity on
ASCII.  On this alphabet `unidecode` maps one character to one
character, so `unidecode` of a word is the character-by-character map. -/
def unidecodeChar (c : Char) : Char :=
  match c with
  | 'Á' | 'À' | 'Â' | 'Ã' => 'A'
  | 'É' | 'Ê' => 'E'
  | 'Í' => 'I'
  | 'Ó' | 'Ô' | 'Õ' => 'O'
  | 'Ú' => 'U'
  | 'Ç' => 'C'
  | 'á' | 'à' | 'â' | 'ã' => 'a'
  | 'é' | 'ê' => 'e'
  | 'í' => 'i'
  | 'ó' | 'ô' | 'õ' => 'o'
  | 'ú' => 'u'
  | 'ç' => 'c'
  | _ => c

/-- Python `word.upper()` on a word, as a `List Char` map. -/
def upperList (w : List Char) : List Char := w.map upperChar

/-- Python `unidecode(word)` on a word, as a `List Char` map. -/
def unidecodeList (w : List Char) : List Char := w.map unidecodeChar

/-- The `Letter` dataclass of `src/wordle/letter.py`: the raw character
plus the two evaluation flags, both `False` at construction. -/
structure Letter where
  _char : Char
  in_word : Bool
  in_position : Bool
deriving DecidableEq

/-- `Letter.char` property: the character uppercased. -/
def Letter.char (l : Letter) : Char := upperChar l._char

/-- `Letter.unaccented_char` property: `unidecode(self.char)`. -/
def Letter.unaccented_char (l : Letter) : Char := unidecodeChar l.char

/-- The `Guess` dataclass of `src/wordle/guess.py`. -/
structure Guess where
  word : List Char
  letters : List Letter
deriving DecidableEq

/-- The `Mode` dataclass of `src/wordle/modes.py`.  `max_guesses` and
`puzzles_amount` are Python ints that are only ever positive in the
fixed settings table; `Nat` suffices. -/
structure Mode where
  name : List Char
  max_guesses : Nat
  puzzles_amount : Nat
deriving DecidableEq

/-- The `default_settings` table of `src/wordle/modes.py`. -/
def default_settings : List (List Char × Nat × Nat) :=
  [("solo".data, 6, 1), ("duo".data, 7, 2), ("quad".data, 9, 4)]

/-- The `Locale` class of `src/wordle/locale.py`.  `_load_words` (file
reading) is not modelled; a `Locale` value stands for the object after
loading, with every stored word already uppercased.  The two Python sets
are embedded as lists (only membership is used), the dict
`unaccented_mapping` as an association list. -/
structure Locale where
  locale : List Char
  secret_words : List (List Char)
  dict_words : List (List Char)
  unaccented_mapping : List (List Char × List Char)
  word_found : List Char
deriving DecidableEq

/-- Python `dict.get` on the association-list embedding of a dict. -/
def dictGet : List (List Char × List Char) → List Char → Option (List Char)
  | [], _ => none
  | (k, v) :: rest, key => if key = k then some v else dictGet rest key

/-- `Locale.find` (`src/wordle/locale.py` lines 57 to 75).  The Python
method mutates `self.word_found` and returns a `bool`; the embedding
returns the updated locale together with that bool.  Note the Python
`if accented_word:` truthiness test: a key mapped to the empty string is
treated as not found. -/
def Locale.find (loc : Locale) (word0 : List Char) : Locale × Bool :=
  let word := upperList word0
  if word ∈ loc.dict_words then
    ({ loc with word_found := word }, true)
  else if word ∈ loc.secret_words then
    ({ loc with word_found := word }, true)
  else
    match dictGet loc.unaccented_mapping word with
    | some accented_word =>
      if accented_word ≠ [] then ({ loc with word_found := accented_word }, true)
      else (loc, false)
    | none => (loc, false)

/-- The exception taxonomy of `src/wordle/exceptions.py` (message
strings elided), plus Python's builtin `IndexError`, which `_compare`
can raise when a list index is out of range. -/
inductive WordleException where
  | GuessLengthError
  | GuessNotFoundError
  | IndexError
deriving DecidableEq

/-- `WORD_LENGTH` of `src/wordle/wordle.py` line 12. -/
def WORD_LENGTH : Nat := 5

/-- One iteration of the first `for index in range(WORD_LENGTH)` loop of
`Wordle._compare` ("Get the greens first").  `none` models an
`IndexError` from `letters[index]` or `remaining_secret[index]`. -/
def pass1Step (st : List Letter × List Char) (index : Nat) :
    Option (List Letter × List Char) :=
  match st.1[index]?, st.2[index]? with
  | some letter, some rc =>
    if letter.unaccented_char = rc then
      some (st.1.set index { letter with in_position := true }, st.2.set index '*')
    else
      some (st.1, st.2)
  | _, _ => none

/-- One iteration of the second `for index in range(WORD_LENGTH)` loop
of `Wordle._compare` ("Now we look for yellows").  Note that, exactly as
in the source, the test does NOT skip letters already marked
`in_position`; `list.remove` removes the first occurrence, as
`List.erase` does. -/
def pass2Step (st : List Letter × List Char) (index : Nat) :
    Option (List Letter × List Char) :=
  match st.1[index]? with
  | some letter =>
    if letter.unaccented_char ∈ st.2 then
      some (st.1.set index { letter with in_word := true }, st.2.erase letter.unaccented_char)
    else
      some (st.1, st.2)
  | none => none

/-- Runs a loop body over a list of indices, propagating an
`IndexError` (`none`). -/
def runPass
    (step : List Letter × List Char → Nat → Option (List Letter × List Char)) :
    List Nat → List Letter × List Char → Option (List Letter × List Char)
  | [], st => some st
  | i :: is, st =>
    match step st i with
    | none => none
    | some st1 => runPass step is st1

/-- The `Wordle` class of `src/wordle/wordle.py`.  The `locale`
attribute is a reference to the one shared `Locale` object; it is
threaded explicitly through the methods instead of being stored. -/
structure Wordle where
  id : Nat
  secret : List Char
  mode : Mode
  guesses : List Guess
  attempts : List (List Char)
deriving DecidableEq

/-- The `Wordle.__init__` constructor: uppercases the secret and starts
with empty histories. -/
def Wordle.new (id : Nat) (secret : List Char) (mode : Mode) : Wordle :=
  { id := id, secret := upperList secret, mode := mode, guesses := [], attempts := [] }

/-- `Wordle._compare` (`src/wordle/wordle.py` lines 28 to 49): build one
`Letter` per character of the word, take a working copy
`list(unidecode(self.secret))`, run the green pass then the yellow pass
over `range(WORD_LENGTH)`, and return the letters.  `none` models an
uncaught `IndexError`. -/
def Wordle._compare (secret word : List Char) : Option (List Letter) :=
  match runPass pass1Step (List.range WORD_LENGTH)
      (word.map (fun c => { _char := c, in_word := false, in_position := false }),
       unidecodeList secret) with
  | none => none
  | some st1 =>
    match runPass pass2Step (List.range WORD_LENGTH) st1 with
    | none => none
    | some st2 => some st2.1

/-- `Wordle.is_solved` property: `len(attempts) > 0 and attempts[-1] == secret`. -/
def Wordle.is_solved (w : Wordle) : Bool :=
  decide (0 < w.attempts.length) && (w.attempts.getLast? == some w.secret)

/-- `Wordle.remaining_attempts` property: `mode.max_guesses - len(attempts)`
(a Python int, which can go negative, hence `Int`). -/
def Wordle.remaining_attempts (w : Wordle) : Int :=
  (w.mode.max_guesses : Int) - w.attempts.length

/-- `Wordle.validate_guess` (`src/wordle/wordle.py` lines 90 to 114).
Uppercases, raises `GuessLengthError` on a length mismatch before any
lookup, raises `GuessNotFoundError` when `locale.find` fails, and
otherwise returns `self.locale.word_found`.  The method writes no field
of `self`, so the puzzle is returned unchanged; the locale comes back
possibly updated by `find`. -/
def Wordle.validate_guess (w : Wordle) (loc : Locale) (word0 : List Char) :
    Wordle × Locale × Except WordleException (List Char) :=
  if (upperList word0).length ≠ WORD_LENGTH then
    (w, loc, Except.error WordleException.GuessLengthError)
  else
    match Locale.find loc (upperList word0) with
    | (loc1, false) => (w, loc1, Except.error WordleException.GuessNotFoundError)
    | (loc1, true) => (w, loc1, Except.ok loc1.word_found)

/-- `Wordle.guess` (`src/wordle/wordle.py` lines 61 to 88): no-op
returning `None` when already solved; otherwise validate
`word.upper()`, score it, append to `attempts` and `guesses`, and
return the new `Guess`.  Errors propagate with whatever locale state the
failing step left behind. -/
def Wordle.guess (w : Wordle) (loc : Locale) (word : List Char) :
    Wordle × Locale × Except WordleException (Option Guess) :=
  if w.is_solved then (w, loc, Except.ok none)
  else
    match Wordle.validate_guess w loc (upperList word) with
    | (w1, loc1, Except.error e) => (w1, loc1, Except.error e)
    | (w1, loc1, Except.ok word1) =>
      match Wordle._compare w1.secret word1 with
      | none => (w1, loc1, Except.error WordleException.IndexError)
      | some letters =>
        ({ w1 with attempts := w1.attempts ++ [word1],
                   guesses := w1.guesses ++ [{ word := word1, letters := letters }] },
         loc1, Except.ok (some { word := word1, letters := letters }))

/-- The `Board` class of `src/wordle/board.py`.  `_setup_puzzles` draws
random secrets, which is not modelled; a `Board` value stands for a
constructed board.  The render-only `debug`/`alignment` arguments are
omitted.  All puzzles alias the one `locale` stored here. -/
structure Board where
  mode : Mode
  locale : Locale
  puzzles : List Wordle
deriving DecidableEq

/-- The `for puzzle in self.puzzles: puzzle.guess(word)` loop of
`Board.guess`, threading the shared locale.  An exception aborts the
loop, leaving the remaining puzzles untouched. -/
def boardGuessList (loc : Locale) (word : List Char) :
    List Wordle → List Wordle × Locale × Option WordleException
  | [] => ([], loc, none)
  | p :: ps =>
    match Wordle.guess p loc word with
    | (p1, loc1, Except.error e) => (p1 :: ps, loc1, some e)
    | (p1, loc1, Except.ok _) =>
      match boardGuessList loc1 word ps with
      | (ps1, loc2, err) => (p1 :: ps1, loc2, err)

/-- `Board.guess` (`src/wordle/board.py` lines 48 to 51): submit the
word to every puzzle in turn.  There is no duplicate-guess check here.
The optional exception is the one a puzzle raised, if any. -/
def Board.guess (b : Board) (word : List Char) : Board × Option WordleException :=
  match boardGuessList b.locale word b.puzzles with
  | (ps, loc, err) => ({ b with puzzles := ps, locale := loc }, err)

/-- `Board.is_solved` (`src/wordle/board.py` lines 53 to 55):
`all([p.is_solved for p in self.puzzles])`. -/
def Board.is_solved (b : Board) : Bool :=
  b.puzzles.all (fun p => p.is_solved)

/-- Outcome of one turn of the interactive loop of `src/wordle/cli.py`. -/
inductive TurnResult where
  | invalid (e : WordleException)
  | duplicate
  | accepted (err : Option WordleException)
deriving DecidableEq

/-- The `for puzzle in puzzles` body of the CLI loop (`src/wordle/cli.py`
lines 53 to 58): each puzzle is guessed with the CURRENT
`puzzle.locale.word_found` (all puzzles share the locale). -/
def cliGuessLoop : Locale → List Wordle → List Wordle × Locale × Option WordleException
  | loc, [] => ([], loc, none)
  | loc, p :: ps =>
    match Wordle.guess p loc loc.word_found with
    | (p1, loc1, Except.error e) => (p1 :: ps, loc1, some e)
    | (p1, loc1, Except.ok _) =>
      match cliGuessLoop loc1 ps with
      | (ps1, loc2, err) => (p1 :: ps1, loc2, err)

/-- One turn of the CLI session loop (`src/wordle/cli.py` lines 34 to
57): uppercase the input, validate it against `puzzles[0]` (an error
re-prompts without consuming the turn), reject a word already in
`previous_guesses` (re-prompting, before any puzzle is touched),
otherwise record it and fan it out to every puzzle.  `none` models the
`IndexError` of `puzzles[0]` on an empty list. -/
def cliTurn (loc : Locale) (puzzles : List Wordle) (previous_guesses : List (List Char))
    (input : List Char) :
    Option (Locale × List Wordle × List (List Char) × TurnResult) :=
  match puzzles with
  | [] => none
  | p0 :: _ =>
    match Wordle.validate_guess p0 loc (upperList input) with
    | (_, loc1, Except.error e) => some (loc1, puzzles, previous_guesses, TurnResult.invalid e)
    | (_, loc1, Except.ok _) =>
      if upperList input ∈ previous_guesses then
        some (loc1, puzzles, previous_guesses, TurnResult.duplicate)
      else
        match cliGuessLoop loc1 puzzles with
        | (ps1, loc2, err) =>
          some (loc2, ps1, previous_guesses ++ [upperList input], TurnResult.accepted err)

/-- Modelled from the spec: one iteration of scoring pass 2 exactly as
the specification words it, skipping every index already marked
`in_position` ("for each index i not already marked in_position").
Used only to compare the specified algorithm with the code's
`_compare`. -/
def specPass2Step (st : List Letter × List Char) (index : Nat) :
    Option (List Letter × List Char) :=
  match st.1[index]? with
  | some letter =>
    if letter.in_position then
      some (st.1, st.2)
    else if letter.unaccented_char ∈ st.2 then
      some (st.1.set index { letter with in_word := true }, st.2.erase letter.unaccented_char)
    else
      some (st.1, st.2)
  | none => none

/-- Modelled from the spec: the two-pass scorer with the
specification's pass 2 (which skips in_position indices). -/
def specCompare (secret word : List Char) : Option (List Letter) :=
  match runPass pass1Step (List.range WORD_LENGTH)
      (word.map (fun c => { _char := c, in_word := false, in_position := false }),
       unidecodeList secret) with
  | none => none
  | some st1 =>
    match runPass specPass2Step (List.range WORD_LENGTH) st1 with
    | none => none
    | some st2 => some st2.1

/-- Repeatedly submits the same word to one puzzle, threading the
shared locale; models a session that keeps re-guessing one word. -/
def iterGuess : Nat → Wordle × Locale → List Char → Wordle × Locale
  | 0, st, _ => st
  | n + 1, st, word =>
    match Wordle.guess st.1 st.2 word with
    | (w1, loc1, _) => iterGuess n (w1, loc1) word

/-- The `solo` mode of the `default_settings` table. -/
def exSoloMode : Mode := { name := "solo".data, max_guesses := 6, puzzles_amount := 1 }

/-- A small concrete locale in the shape `_load_words` produces:
uppercase corpora and an accent-fold mapping whose values are dictionary
words. -/
def exLocale : Locale :=
  { locale := "en_us".data,
    secret_words := ["CRANE".data, "APPLE".data, "GRAPE".data],
    dict_words := ["TRACE".data, "AUDIO".data, "IRMÃO".data],
    unaccented_mapping := [("IRMAO".data, "IRMÃO".data)],
    word_found := [] }

/-- A freshly constructed solo puzzle with secret CRANE. -/
def exPuzzle : Wordle := Wordle.new 1 ("CRANE".data) exSoloMode

/-- A puzzle that has been solved by guessing its own secret. -/
def exSolved : Wordle :=
  (Wordle.guess exPuzzle exLocale ("CRANE".data)).1

/-- A one-puzzle board over the concrete locale. -/
def exBoard : Board := { mode := exSoloMode, locale := exLocale, puzzles := [exPuzzle] }

/-- The Guess produced by scoring TRACE against the secret CRANE. -/
def exTraceGuess : Guess :=
  { word := "TRACE".data,
    letters := [{ _char := 'T', in_word := false, in_position := false },
                { _char := 'R', in_word := false, in_position := true },
                { _char := 'A', in_word := false, in_position := true },
                { _char := 'C', in_word := true, in_position := false },
                { _char := 'E', in_word := false, in_position := true }] }

/-- A locale whose accent-fold mapping has a key bound to the empty
string (nothing in `_load_words` rules this out). -/
def locEdge : Locale :=
  { locale := "en_us".data, secret_words := [], dict_words := [],
    unaccented_mapping := [("AAAAA".data, [])], word_found := [] }


/-- The characters of a list of Letters, in order. -/
def chars (ls : List Letter) : List Char := ls.map (fun l => l._char)

/-- C1: the code violates the claimed two-pass algorithm.  On secret
ABAXX and guess AAYYY the code's pass 2 also visits index 0, which is
already in_position, marks it in_word and consumes the secret's second
A, so the A at index 1 ends up not-present; the algorithm as claimed
(pass 2 skipping in_position indices, here `specCompare`) marks the A
at index 1 in_word. -/
theorem c1_pass2_divergence :
    Wordle._compare ("ABAXX".data) ("AAYYY".data) =
      some [{ _char := 'A', in_word := true, in_position := true },
            { _char := 'A', in_word := false, in_position := false },
            { _char := 'Y', in_word := false, in_position := false },
            { _char := 'Y', in_word := false, in_position := false },
            { _char := 'Y', in_word := false, in_position := false }] ∧
    specCompare ("ABAXX".data) ("AAYYY".data) =
      some [{ _char := 'A', in_word := false, in_position := true },
            { _char := 'A', in_word := true, in_position := false },
            { _char := 'Y', in_word := false, in_position := false },
            { _char := 'Y', in_word := false, in_position := false },
            { _char := 'Y', in_word := false, in_position := false }] := by
  decide

/-- C2: scoring BOBBY against the secret ABBEY marks exactly one B
in_position, exactly one other B in_word, and the remaining B neither
(duplicates are not over-credited). -/
theorem c2_abbey_bobby_duplicates :
    Wordle._compare ("ABBEY".data) ("BOBBY".data) =
      some [{ _char := 'B', in_word := true, in_position := false },
            { _char := 'O', in_word := false, in_position := false },
            { _char := 'B', in_word := false, in_position := true },
            { _char := 'B', in_word := false, in_position := false },
            { _char := 'Y', in_word := false, in_position := true }] ∧
    (Wordle._compare ("ABBEY".data) ("BOBBY".data)).map
        (fun ls => ls.countP (fun l => l._char == 'B' && l.in_position)) = some 1 ∧
    (Wordle._compare ("ABBEY".data) ("BOBBY".data)).map
        (fun ls => ls.countP (fun l => l._char == 'B' && !l.in_position && l.in_word)) = some 1 ∧
    (Wordle._compare ("ABBEY".data) ("BOBBY".data)).map
        (fun ls => ls.countP (fun l => l._char == 'B' && !l.in_position && !l.in_word)) = some 1 := by
  decide

/-- C3 counterexample: submitting the same valid word TRACE twice to a
board is not rejected (no error is reported) and the second submission
is recorded again, consuming another attempt (remaining drops to 4 of
6), contradicting the claimed `DuplicateGuessError` rejection. -/
theorem c3_counterexample :
    (Board.guess (Board.guess exBoard ("TRACE".data)).1 ("TRACE".data)).2 = none ∧
    ((Board.guess (Board.guess exBoard ("TRACE".data)).1 ("TRACE".data)).1.puzzles.map
      (fun p => p.attempts)) = [["TRACE".data, "TRACE".data]] ∧
    ((Board.guess (Board.guess exBoard ("TRACE".data)).1 ("TRACE".data)).1.puzzles.map
      (fun p => p.remaining_attempts)) = [(4 : Int)] := by
  decide

/-- C4 counterexample: after six wrong guesses a solo puzzle is
unsolved with remaining_attempts 0, yet a further submit_guess call
still records a seventh attempt and remaining_attempts becomes -1. -/
theorem c4_counterexample :
    (iterGuess 6 (exPuzzle, exLocale) ("TRACE".data)).1.is_solved = false ∧
    (iterGuess 6 (exPuzzle, exLocale) ("TRACE".data)).1.remaining_attempts = 0 ∧
    (Wordle.guess (iterGuess 6 (exPuzzle, exLocale) ("TRACE".data)).1
        (iterGuess 6 (exPuzzle, exLocale) ("TRACE".data)).2
        ("TRACE".data)).1.attempts.length = 7 ∧
    (Wordle.guess (iterGuess 6 (exPuzzle, exLocale) ("TRACE".data)).1
        (iterGuess 6 (exPuzzle, exLocale) ("TRACE".data)).2
        ("TRACE".data)).1.remaining_attempts = -1 := by
  decide

/-- C5 counterexample: a successful validate_guess call changes the
locale (its word_found side-channel field), so the locale is not
completely unchanged after the call. -/
theorem c5_counterexample :
    (Wordle.validate_guess exPuzzle exLocale ("TRACE".data)).2.1 ≠ exLocale := by
  decide

/-- C6 counterexample: on the equal-length pair secret CD, guess AB
(both shorter than WORD_LENGTH) scoring does not return a result: the
loop over range(WORD_LENGTH) raises IndexError. -/
theorem c6_counterexample :
    ("AB".data).length = ("CD".data).length ∧
    Wordle._compare ("CD".data) ("AB".data) = none := by
  decide

/-- C9 counterexample: in a locale whose accent-fold mapping binds the
key AAAAA to the empty string, the word AAAAA equals a key of the
mapping yet resolution fails, refuting the claimed if-and-only-if
characterisation. -/
theorem c9_counterexample :
    ¬(((Locale.find locEdge ("AAAAA".data)).2 = true) ↔
      (upperList ("AAAAA".data) ∈ locEdge.dict_words ∨
       upperList ("AAAAA".data) ∈ locEdge.secret_words ∨
       (dictGet locEdge.unaccented_mapping (upperList ("AAAAA".data))).isSome = true)) := by
  decide

theorem upperList_length (w : List Char) : (upperList w).length = w.length := by
  simp [upperList]

theorem find_spec (loc : Locale) (word : List Char) :
    Locale.find loc word =
      (if upperList word ∈ loc.dict_words then ({ loc with word_found := upperList word }, true)
       else if upperList word ∈ loc.secret_words then
         ({ loc with word_found := upperList word }, true)
       else
         match dictGet loc.unaccented_mapping (upperList word) with
         | some v => if v ≠ [] then ({ loc with word_found := v }, true) else (loc, false)
         | none => (loc, false)) := rfl

theorem find_only_word_found (loc : Locale) (word : List Char) :
    (Locale.find loc word).1 =
      { loc with word_found := (Locale.find loc word).1.word_found } := by
  rw [find_spec]
  repeat' split
  all_goals rfl

theorem find_false (loc : Locale) (word : List Char)
    (h : (Locale.find loc word).2 = false) : (Locale.find loc word).1 = loc := by
  rw [find_spec] at h ⊢
  by_cases h1 : upperList word ∈ loc.dict_words
  · simp [h1] at h
  · by_cases h2 : upperList word ∈ loc.secret_words
    · simp [h1, h2] at h
    · rcases h3 : dictGet loc.unaccented_mapping (upperList word) with _ | v
      · simp [h1, h2, h3]
      · by_cases h4 : v = []
        · simp [h1, h2, h3, h4]
        · simp [h1, h2, h3, h4] at h

theorem validate_guess_fst (w : Wordle) (loc : Locale) (word : List Char) :
    (Wordle.validate_guess w loc word).1 = w := by
  unfold Wordle.validate_guess
  repeat' split
  all_goals rfl

theorem wordle_is_solved_iff (w : Wordle) :
    w.is_solved = true ↔ w.attempts ≠ [] ∧ w.attempts.getLast? = some w.secret := by
  simp [Wordle.is_solved, List.length_pos]

/-- C7: submit_guess on an already-solved puzzle is a complete no-op
for every input word: no scoring happens, nothing is returned, and the
puzzle and the locale are exactly unchanged. -/
theorem c7_solved_guess_noop (w : Wordle) (loc : Locale) (word : List Char)
    (h : w.is_solved = true) :
    Wordle.guess w loc word = (w, loc, Except.ok none) := by
  unfold Wordle.guess
  simp [h]

/-- Witness for C7: a solved puzzle ignores even an invalid word. -/
theorem c7_solved_guess_noop_witness :
    exSolved.is_solved = true ∧
    Wordle.guess exSolved exLocale ("AB".data) = (exSolved, exLocale, Except.ok none) :=
  ⟨by decide, c7_solved_guess_noop exSolved exLocale ("AB".data) (by decide)⟩

/-- C5 (amended): validate_guess never changes the puzzle and never
changes the locale's corpora; on any failing call the locale is
completely unchanged, and the only mutation a successful call performs
is setting the locale's word_found side-channel to the resolved word. -/
theorem c5_validate_frame (w : Wordle) (loc : Locale) (word : List Char) :
    (Wordle.validate_guess w loc word).1 = w ∧
    (Wordle.validate_guess w loc word).2.1.locale = loc.locale ∧
    (Wordle.validate_guess w loc word).2.1.secret_words = loc.secret_words ∧
    (Wordle.validate_guess w loc word).2.1.dict_words = loc.dict_words ∧
    (Wordle.validate_guess w loc word).2.1.unaccented_mapping = loc.unaccented_mapping ∧
    (∀ e, (Wordle.validate_guess w loc word).2.2 = Except.error e →
      (Wordle.validate_guess w loc word).2.1 = loc) ∧
    (∀ v, (Wordle.validate_guess w loc word).2.2 = Except.ok v →
      (Wordle.validate_guess w loc word).2.1.word_found = v) := by
  refine ⟨validate_guess_fst w loc word, ?_⟩
  unfold Wordle.validate_guess
  split
  · exact ⟨rfl, rfl, rfl, rfl, fun e _ => rfl, fun v hv => by simp at hv⟩
  · rcases hf : Locale.find loc (upperList word) with ⟨loc1, b⟩
    have honly := find_only_word_found loc (upperList word)
    rw [hf] at honly
    cases b
    · have hl : loc1 = loc := by
        have hfalse := find_false loc (upperList word) (by rw [hf])
        rw [hf] at hfalse
        simpa using hfalse
      subst hl
      exact ⟨rfl, rfl, rfl, rfl, fun e _ => rfl, fun v hv => by simp at hv⟩
    · refine ⟨by rw [honly], by rw [honly], by rw [honly], by rw [honly],
        fun e he => by simp at he, fun v hv => ?_⟩
      simp only [Except.ok.injEq] at hv
      simp [hv]

/-- Witness for C5: a failing call leaves the locale unchanged and a
successful call sets word_found to the resolved word. -/
theorem c5_validate_frame_witness :
    (Wordle.validate_guess exPuzzle exLocale ("AB".data)).2.1 = exLocale ∧
    (Wordle.validate_guess exPuzzle exLocale ("TRACE".data)).2.1.word_found = "TRACE".data := by
  have h1 := c5_validate_frame exPuzzle exLocale ("AB".data)
  have h2 := c5_validate_frame exPuzzle exLocale ("TRACE".data)
  exact ⟨h1.2.2.2.2.2.1 WordleException.GuessLengthError (by decide),
    h2.2.2.2.2.2.2 ("TRACE".data) (by decide)⟩

/-- C8: validate_guess fails with GuessLengthError for every word whose
length differs from WORD_LENGTH, without touching the locale (the check
precedes the dictionary lookup); fails with GuessNotFoundError when the
length is right but the dictionary lookup finds nothing; and otherwise
returns the resolved word (the locale's word_found after the lookup). -/
theorem c8_validate_characterization (w : Wordle) (loc : Locale) (word : List Char) :
    (word.length ≠ WORD_LENGTH →
      Wordle.validate_guess w loc word =
        (w, loc, Except.error WordleException.GuessLengthError)) ∧
    (word.length = WORD_LENGTH → (Locale.find loc (upperList word)).2 = false →
      Wordle.validate_guess w loc word =
        (w, (Locale.find loc (upperList word)).1,
          Except.error WordleException.GuessNotFoundError)) ∧
    (word.length = WORD_LENGTH → (Locale.find loc (upperList word)).2 = true →
      Wordle.validate_guess w loc word =
        (w, (Locale.find loc (upperList word)).1,
          Except.ok (Locale.find loc (upperList word)).1.word_found)) := by
  refine ⟨fun h => ?_, fun h hf => ?_, fun h hf => ?_⟩
  · unfold Wordle.validate_guess
    simp [upperList_length, h]
  · unfold Wordle.validate_guess
    rcases hff : Locale.find loc (upperList word) with ⟨loc1, b⟩
    have hb : b = false := by rw [hff] at hf; exact hf
    subst hb
    simp [upperList_length, h, hff]
  · unfold Wordle.validate_guess
    rcases hff : Locale.find loc (upperList word) with ⟨loc1, b⟩
    have hb : b = true := by rw [hff] at hf; exact hf
    subst hb
    simp [upperList_length, h, hff]

/-- Witness for C8: a two-letter word is rejected for length with the
locale untouched, QQQQQ passes the length check but is not found, and
the unaccented form irmao resolves to the accented dictionary word. -/
theorem c8_validate_characterization_witness :
    Wordle.validate_guess exPuzzle exLocale ("AB".data) =
      (exPuzzle, exLocale, Except.error WordleException.GuessLengthError) ∧
    Wordle.validate_guess exPuzzle exLocale ("QQQQQ".data) =
      (exPuzzle, (Locale.find exLocale (upperList ("QQQQQ".data))).1,
        Except.error WordleException.GuessNotFoundError) ∧
    Wordle.validate_guess exPuzzle exLocale ("irmao".data) =
      (exPuzzle, (Locale.find exLocale (upperList ("irmao".data))).1,
        Except.ok (Locale.find exLocale (upperList ("irmao".data))).1.word_found) :=
  ⟨(c8_validate_characterization exPuzzle exLocale ("AB".data)).1 (by decide),
   (c8_validate_characterization exPuzzle exLocale ("QQQQQ".data)).2.1 (by decide) (by decide),
   (c8_validate_characterization exPuzzle exLocale ("irmao".data)).2.2 (by decide) (by decide)⟩

/-- C9 (amended): dictionary resolution succeeds exactly when the
uppercased word is in dict_words, in secret_words, or equals a key of
the unaccented mapping whose mapped canonical form is non-empty (the
code tests the mapped value's truthiness); in the first two cases the
word itself becomes word_found, in the key case the mapped accented
form does; in every other case resolution fails with the locale
unchanged. -/
theorem c9_find_resolution (loc : Locale) (word : List Char) :
    ((Locale.find loc word).2 = true ↔
      (upperList word ∈ loc.dict_words ∨ upperList word ∈ loc.secret_words ∨
        ∃ v, dictGet loc.unaccented_mapping (upperList word) = some v ∧ v ≠ [])) ∧
    (upperList word ∈ loc.dict_words →
      Locale.find loc word = ({ loc with word_found := upperList word }, true)) ∧
    (upperList word ∉ loc.dict_words → upperList word ∈ loc.secret_words →
      Locale.find loc word = ({ loc with word_found := upperList word }, true)) ∧
    (∀ v, upperList word ∉ loc.dict_words → upperList word ∉ loc.secret_words →
      dictGet loc.unaccented_mapping (upperList word) = some v → v ≠ [] →
      Locale.find loc word = ({ loc with word_found := v }, true)) ∧
    ((Locale.find loc word).2 = false → Locale.find loc word = (loc, false)) := by
  by_cases h1 : upperList word ∈ loc.dict_words
  · simp [find_spec, h1]
  · by_cases h2 : upperList word ∈ loc.secret_words
    · simp [find_spec, h1, h2]
    · rcases h3 : dictGet loc.unaccented_mapping (upperList word) with _ | v
      · simp [find_spec, h1, h2, h3]
      · by_cases h4 : v = []
        · subst h4
          simp [find_spec, h1, h2, h3]
        · simp [find_spec, h1, h2, h3, h4]

/-- Witness for C9: the unaccented irmao resolves through the mapping
to the canonical accented IRMÃO. -/
theorem c9_find_resolution_witness :
    Locale.find exLocale ("irmao".data) =
      ({ exLocale with word_found := "IRMÃO".data }, true) :=
  (c9_find_resolution exLocale ("irmao".data)).2.2.2.1 ("IRMÃO".data)
    (by decide) (by decide) (by decide) (by decide)

/-- C10: a board is solved exactly when every one of its puzzles has a
non-empty attempts list ending with that puzzle's secret. -/
theorem c10_board_solved_iff (b : Board) :
    Board.is_solved b = true ↔
      ∀ p ∈ b.puzzles, p.attempts ≠ [] ∧ p.attempts.getLast? = some p.secret := by
  simp only [Board.is_solved, List.all_eq_true, wordle_is_solved_iff]

/-- Witness for C10 at a concrete one-puzzle board. -/
theorem c10_board_solved_iff_witness :
    Board.is_solved { mode := exSoloMode, locale := exLocale, puzzles := [exSolved] } = true :=
  (c10_board_solved_iff _).mpr (by decide)

theorem guess_ok_shape (w : Wordle) (loc : Locale) (word : List Char)
    (w1 : Wordle) (loc1 : Locale) (v : List Char) (ls : List Letter)
    (h1 : w.is_solved = false)
    (hv : Wordle.validate_guess w loc (upperList word) = (w1, loc1, Except.ok v))
    (hc : Wordle._compare w1.secret v = some ls) :
    Wordle.guess w loc word =
      ({ w1 with attempts := w1.attempts ++ [v],
                 guesses := w1.guesses ++ [{ word := v, letters := ls }] }, loc1,
        Except.ok (some { word := v, letters := ls })) := by
  unfold Wordle.guess
  simp [h1, hv, hc]

/-- C4 (amended): only Solved is absorbing at the puzzle level.
submit_guess checks is_solved alone, so an unsolved puzzle whose
remaining_attempts is already 0 (or below) still records any further
accepted guess: attempts grows past max_guesses and remaining_attempts
becomes negative.  The guess budget is enforced by the session loop,
not by the puzzle. -/
theorem c4_failed_not_absorbing (w : Wordle) (loc : Locale) (word : List Char) (g : Guess)
    (h1 : w.is_solved = false)
    (h2 : w.remaining_attempts ≤ 0)
    (h3 : (Wordle.guess w loc word).2.2 = Except.ok (some g)) :
    (Wordle.guess w loc word).1.attempts.length = w.attempts.length + 1 ∧
    (Wordle.guess w loc word).1.remaining_attempts = w.remaining_attempts - 1 ∧
    (Wordle.guess w loc word).1.remaining_attempts < 0 := by
  rcases hv : Wordle.validate_guess w loc (upperList word) with ⟨w1, loc1, e | v⟩
  · have hge : Wordle.guess w loc word = (w1, loc1, Except.error e) := by
      unfold Wordle.guess
      simp [h1, hv]
    rw [hge] at h3
    simp at h3
  · rcases hc : Wordle._compare w1.secret v with _ | ls
    · have hge : Wordle.guess w loc word = (w1, loc1, Except.error WordleException.IndexError) := by
        unfold Wordle.guess
        simp [h1, hv, hc]
      rw [hge] at h3
      simp at h3
    · have hw1 : w1 = w := by
        have hfst := validate_guess_fst w loc (upperList word)
        rw [hv] at hfst
        exact hfst
      have hg := guess_ok_shape w loc word w1 loc1 v ls h1 hv hc
      rw [hg, hw1]
      unfold Wordle.remaining_attempts at h2
      refine ⟨by simp, ?_, ?_⟩
      · simp [Wordle.remaining_attempts]
        omega
      · simp [Wordle.remaining_attempts]
        omega

/-- Witness for C4: the puzzle that already used its six attempts
without solving still accepts a seventh valid guess. -/
theorem c4_failed_not_absorbing_witness :
    (iterGuess 6 (exPuzzle, exLocale) ("TRACE".data)).1.is_solved = false ∧
    (iterGuess 6 (exPuzzle, exLocale) ("TRACE".data)).1.remaining_attempts ≤ 0 ∧
    (Wordle.guess (iterGuess 6 (exPuzzle, exLocale) ("TRACE".data)).1
        (iterGuess 6 (exPuzzle, exLocale) ("TRACE".data)).2 ("TRACE".data)).2.2 =
      Except.ok (some exTraceGuess) ∧
    ((Wordle.guess (iterGuess 6 (exPuzzle, exLocale) ("TRACE".data)).1
        (iterGuess 6 (exPuzzle, exLocale) ("TRACE".data)).2 ("TRACE".data)).1.attempts.length =
      (iterGuess 6 (exPuzzle, exLocale) ("TRACE".data)).1.attempts.length + 1 ∧
     (Wordle.guess (iterGuess 6 (exPuzzle, exLocale) ("TRACE".data)).1
        (iterGuess 6 (exPuzzle, exLocale) ("TRACE".data)).2 ("TRACE".data)).1.remaining_attempts =
      (iterGuess 6 (exPuzzle, exLocale) ("TRACE".data)).1.remaining_attempts - 1 ∧
     (Wordle.guess (iterGuess 6 (exPuzzle, exLocale) ("TRACE".data)).1
        (iterGuess 6 (exPuzzle, exLocale) ("TRACE".data)).2 ("TRACE".data)).1.remaining_attempts < 0) :=
  ⟨by decide, by decide, by decide,
   c4_failed_not_absorbing _ _ ("TRACE".data) exTraceGuess (by decide) (by decide) (by decide)⟩

/-- C3 (amended): duplicate rejection happens in the CLI session loop,
not in the Board (no DuplicateGuessError type exists).  When the
uppercased input passes validation but is already in the session's
previously-accepted list, the turn is skipped before any puzzle is
touched: the puzzles (hence every attempts list and remaining_attempts)
and the previously-accepted list are returned unchanged. -/
theorem c3_cli_duplicate_skip (loc : Locale) (p0 : Wordle) (ps : List Wordle)
    (prev : List (List Char)) (input : List Char)
    (hok : ∃ v, (Wordle.validate_guess p0 loc (upperList input)).2.2 = Except.ok v)
    (hdup : upperList input ∈ prev) :
    cliTurn loc (p0 :: ps) prev input =
      some ((Wordle.validate_guess p0 loc (upperList input)).2.1, p0 :: ps, prev,
        TurnResult.duplicate) := by
  obtain ⟨v, hv⟩ := hok
  rcases hval : Wordle.validate_guess p0 loc (upperList input) with ⟨w1, loc1, e | u⟩
  · rw [hval] at hv
    simp at hv
  · unfold cliTurn
    simp [hdup, hval]

/-- Witness for C3: resubmitting trace (lower case) when TRACE was
already accepted is skipped by the CLI turn with no puzzle touched. -/
theorem c3_cli_duplicate_skip_witness :
    upperList ("trace".data) ∈ [("TRACE".data)] ∧
    cliTurn exLocale [exPuzzle] [("TRACE".data)] ("trace".data) =
      some ((Wordle.validate_guess exPuzzle exLocale (upperList ("trace".data))).2.1,
        [exPuzzle], [("TRACE".data)], TurnResult.duplicate) :=
  ⟨by decide,
   c3_cli_duplicate_skip exLocale exPuzzle [] [("TRACE".data)] ("trace".data)
     ⟨"TRACE".data, by decide⟩ (by decide)⟩

theorem chars_init : ∀ (word : List Char),
    chars (word.map (fun c =>
      ({ _char := c, in_word := false, in_position := false } : Letter))) = word
  | [] => rfl
  | c :: cs => by
    have ih := chars_init cs
    simp only [List.map_cons, chars] at ih ⊢
    rw [ih]

theorem chars_set : ∀ (ls : List Letter) (i : Nat) (a b : Letter),
    ls[i]? = some a → b._char = a._char → chars (ls.set i b) = chars ls
  | [], _, _, _, h, _ => by simp at h
  | x :: xs, 0, a, b, h, hb => by
    simp at h
    subst h
    simp [chars, hb]
  | x :: xs, n + 1, a, b, h, hb => by
    simp at h
    show chars (x :: xs.set n b) = chars (x :: xs)
    have hrec := chars_set xs n a b h hb
    simp only [chars, List.map_cons] at hrec ⊢
    rw [hrec]

theorem pass1Step_spec (st : List Letter × List Char) (i : Nat)
    (h1 : i < st.1.length) (h2 : i < st.2.length) :
    ∃ st1, pass1Step st i = some st1 ∧ st1.1.length = st.1.length ∧
      st1.2.length = st.2.length ∧ chars st1.1 = chars st.1 := by
  have e1 : st.1[i]? = some st.1[i] := List.getElem?_eq_getElem h1
  have e2 : st.2[i]? = some st.2[i] := List.getElem?_eq_getElem h2
  by_cases hc : (st.1[i]).unaccented_char = st.2[i]
  · refine ⟨(st.1.set i { st.1[i] with in_position := true }, st.2.set i '*'),
      by simp [pass1Step, e1, e2, hc], by simp, by simp, ?_⟩
    exact chars_set st.1 i (st.1[i]) _ e1 rfl
  · exact ⟨st, by simp [pass1Step, e1, e2, hc], rfl, rfl, rfl⟩

theorem pass2Step_spec (st : List Letter × List Char) (i : Nat)
    (h1 : i < st.1.length) :
    ∃ st1, pass2Step st i = some st1 ∧ st1.1.length = st.1.length ∧
      chars st1.1 = chars st.1 := by
  have e1 : st.1[i]? = some st.1[i] := List.getElem?_eq_getElem h1
  by_cases hm : (st.1[i]).unaccented_char ∈ st.2
  · refine ⟨(st.1.set i { st.1[i] with in_word := true },
      st.2.erase (st.1[i]).unaccented_char),
      by simp [pass2Step, e1, hm], by simp, ?_⟩
    exact chars_set st.1 i (st.1[i]) _ e1 rfl
  · exact ⟨st, by simp [pass2Step, e1, hm], rfl, rfl⟩

theorem runPass1_spec : ∀ (idxs : List Nat) (st : List Letter × List Char),
    (∀ i ∈ idxs, i < st.1.length ∧ i < st.2.length) →
    ∃ st2, runPass pass1Step idxs st = some st2 ∧ st2.1.length = st.1.length ∧
      st2.2.length = st.2.length ∧ chars st2.1 = chars st.1
  | [], st, _ => ⟨st, rfl, rfl, rfl, rfl⟩
  | i :: is, st, h => by
    obtain ⟨h1, h2⟩ := h i (by simp)
    obtain ⟨st1, hstep, hl1, hl2, hch⟩ := pass1Step_spec st i h1 h2
    obtain ⟨st2, hrun, hl1b, hl2b, hchb⟩ := runPass1_spec is st1 (by
      intro j hj
      obtain ⟨hj1, hj2⟩ := h j (by simp [hj])
      exact ⟨by rw [hl1]; exact hj1, by rw [hl2]; exact hj2⟩)
    refine ⟨st2, ?_, by rw [hl1b, hl1], by rw [hl2b, hl2], by rw [hchb, hch]⟩
    unfold runPass
    rw [hstep]
    exact hrun

theorem runPass2_spec : ∀ (idxs : List Nat) (st : List Letter × List Char),
    (∀ i ∈ idxs, i < st.1.length) →
    ∃ st2, runPass pass2Step idxs st = some st2 ∧ st2.1.length = st.1.length ∧
      chars st2.1 = chars st.1
  | [], st, _ => ⟨st, rfl, rfl, rfl⟩
  | i :: is, st, h => by
    have h1 := h i (by simp)
    obtain ⟨st1, hstep, hl1, hch⟩ := pass2Step_spec st i h1
    obtain ⟨st2, hrun, hl1b, hchb⟩ := runPass2_spec is st1 (by
      intro j hj
      rw [hl1]
      exact h j (by simp [hj]))
    refine ⟨st2, ?_, by rw [hl1b, hl1], by rw [hchb, hch]⟩
    unfold runPass
    rw [hstep]
    exact hrun

/-- C6 (amended): guess scoring is total over any two strings whose
lengths are both at least WORD_LENGTH (in particular over equal-length
five-letter words): it returns one Letter per guess character,
index-aligned with the guess (the letters carry exactly the guess's
characters in order).  For shorter inputs the range(WORD_LENGTH) loops
raise IndexError. -/
theorem c6_compare_total (secret word : List Char)
    (hs : WORD_LENGTH ≤ secret.length) (hw : WORD_LENGTH ≤ word.length) :
    (Wordle._compare secret word).map (fun ls => ls.length) = some word.length ∧
    (Wordle._compare secret word).map chars = some word := by
  have hb1 : ∀ i ∈ List.range WORD_LENGTH,
      i < (word.map (fun c =>
        ({ _char := c, in_word := false, in_position := false } : Letter))).length ∧
      i < (unidecodeList secret).length := by
    intro i hi
    rw [List.mem_range] at hi
    refine ⟨?_, ?_⟩
    · rw [List.length_map]
      omega
    · rw [unidecodeList, List.length_map]
      omega
  obtain ⟨st1, hrun1, hl1, hl2, hch1⟩ := runPass1_spec (List.range WORD_LENGTH)
    (word.map (fun c => ({ _char := c, in_word := false, in_position := false } : Letter)),
      unidecodeList secret) hb1
  have hb2 : ∀ i ∈ List.range WORD_LENGTH, i < st1.1.length := by
    intro i hi
    rw [List.mem_range] at hi
    rw [hl1, List.length_map]
    omega
  obtain ⟨st2, hrun2, hl1b, hch2⟩ := runPass2_spec (List.range WORD_LENGTH) st1 hb2
  have hcomp : Wordle._compare secret word = some st2.1 := by
    unfold Wordle._compare
    simp [hrun1, hrun2]
  have hchars0 := chars_init word
  rw [hcomp]
  refine ⟨?_, ?_⟩
  · simp [hl1b, hl1]
  · simp [hch2, hch1, hchars0]

/-- Witness for C6: scoring TRACE against CRANE returns five letters
carrying exactly the guess's characters. -/
theorem c6_compare_total_witness :
    (Wordle._compare ("CRANE".data) ("TRACE".data)).map (fun ls => ls.length) =
      some (("TRACE".data).length) ∧
    (Wordle._compare ("CRANE".data) ("TRACE".data)).map chars = some ("TRACE".data) :=
  c6_compare_total ("CRANE".data) ("TRACE".data) (by decide) (by decide)

end WordleGame
